import Mathlib

/-!
Verification of the gallump2 reconciliation-and-resilience core.

Shallow embedding of the Python source:
* `gallump/core/risk.py` — `RiskManager.evaluate`, `RiskManager.calculate_safe_size`
* `gallump/core/validators.py` — the TRAIL branch of `validate_order`
* `gallump/core/broker.py` — `validate_ibkr_order_type`, request counters, health
* `gallump_next/execution/order_validator.py` — `OrderValidator.validate`
* `gallump/core/storage.py` — `Storage.sync_pending_orders` (the Reconciler)
* `gallump/core/types.py` — `PendingOrder`, `BracketOrder.get_status`
* `gallump_next/core/connection_pool.py` — `ConnectionPool.get_connection`

Python floats/Decimals are modelled as rationals (`ℚ`), Python `None` as
`Option.none`, raised exceptions as `Except.error`. Python truthiness on a
numeric-or-None value (`x or 1`, `if not x`) is modelled explicitly: falsy
means `none` or `0`.
-/

namespace Gallump

/-! ## Risk gate — `gallump/core/risk.py` -/

/-- `RiskManager` configuration keys (risk.py 12–18). `max_loss_pct` is carried
but unused by the functions below, as in the source. -/
structure RiskConfig where
  max_position_pct : ℚ
  max_loss_pct : ℚ
  max_positions : ℕ
  option_stop_pct : ℚ
  stock_stop_pct : ℚ
deriving DecidableEq

/-- `RiskManager.DEFAULTS` (risk.py 12–18). -/
def RiskManager.DEFAULTS : RiskConfig :=
  { max_position_pct := 1/10
    max_loss_pct := 3/20
    max_positions := 10
    option_stop_pct := 3/10
    stock_stop_pct := 3/20 }

/-- `Position` dataclass (types.py 6–23); only fields carried by the dataclass. -/
structure Position where
  symbol : String
  position : ℚ
  marketPrice : ℚ
  marketValue : ℚ
  averageCost : ℚ
  unrealizedPnL : ℚ
  realizedPnL : ℚ
  contractId : ℤ
deriving DecidableEq

/-- `Portfolio` dataclass (types.py 25–29). -/
structure Portfolio where
  total_value : ℚ
  positions : List Position
deriving DecidableEq

/-- `Trade` dataclass (types.py 31–36). -/
structure Trade where
  asset_type : String
  price : ℚ
  quantity : ℚ
deriving DecidableEq

/-- The two warning strings built by `RiskManager.evaluate` (risk.py 35, 40).
The Python code interpolates the offending value and the configured limit into
the message; the constructor carries exactly those interpolated values. -/
inductive RiskWarning where
  | positionTooLarge (position_pct max_position_pct : ℚ)
  | tooManyPositions (count max_positions : ℕ)
deriving DecidableEq

/-- `RiskResult` dataclass (types.py 38–47). -/
structure RiskResult where
  approved : Bool
  position_size : ℚ
  stop_loss : ℚ
  max_loss : ℚ
  warnings : List RiskWarning
deriving DecidableEq

/-- Python `x or 1` on a number: `x` when truthy (non-zero), else `1`. -/
def orOne (x : ℚ) : ℚ := if x = 0 then 1 else x

/-- `RiskManager.evaluate` (risk.py 25–57), statement by statement:
`position_value = quantity * price`; `position_pct = position_value /
float(portfolio.total_value or 1)`; the two constraint checks each append a
warning and clear `approved`; stop loss by asset class; `max_loss = (price -
stop_loss) * quantity`. -/
def RiskManager.evaluate (cfg : RiskConfig) (trade : Trade) (portfolio : Portfolio) :
    RiskResult :=
  let position_value := trade.quantity * trade.price
  let position_pct := position_value / orOne portfolio.total_value
  let warnings : List RiskWarning := []
  let approved := true
  let step1 : List RiskWarning × Bool :=
    if position_pct > cfg.max_position_pct then
      (warnings ++ [.positionTooLarge position_pct cfg.max_position_pct], false)
    else (warnings, approved)
  let step2 : List RiskWarning × Bool :=
    if portfolio.positions.length ≥ cfg.max_positions then
      (step1.1 ++ [.tooManyPositions portfolio.positions.length cfg.max_positions], false)
    else step1
  let stop_loss :=
    if trade.asset_type = "OPTION" then trade.price * (1 - cfg.option_stop_pct)
    else trade.price * (1 - cfg.stock_stop_pct)
  let max_loss := (trade.price - stop_loss) * trade.quantity
  { approved := step2.2
    position_size := trade.quantity
    stop_loss := stop_loss
    max_loss := max_loss
    warnings := step2.1 }

/-- Python `int(x)` on a float/rational: truncation toward zero. -/
def intTrunc (q : ℚ) : ℤ := if q < 0 then ⌈q⌉ else ⌊q⌋

/-- `RiskManager.calculate_safe_size` (risk.py 64–68):
`max_position = total_value * max_position_pct`; `max_shares = max_position /
(trade.price or 1)`; `return min(float(trade.quantity), int(max_shares))`. -/
def RiskManager.calculate_safe_size (cfg : RiskConfig) (trade : Trade)
    (portfolio : Portfolio) : ℚ :=
  let max_position := portfolio.total_value * cfg.max_position_pct
  let max_shares := max_position / orOne trade.price
  min trade.quantity ((intTrunc max_shares : ℤ) : ℚ)

/-! ## Order validation — three validators for trailing orders

`gallump/core/validators.py` (`validate_order`, TRAIL branch, lines 171–194),
`gallump/core/broker.py` (`Broker.validate_ibkr_order_type`, lines 691–710),
`gallump_next/execution/order_validator.py` (`OrderValidator.validate`). -/

/-- The TRAIL branch of `validate_order` (validators.py 171–194).
Inputs are the order dict's `trail_percent` / `trail_amount` entries (`none` =
key absent or `None`); output is the pair written into the normalized dict.
`has_percent`/`has_amount` are key-present-and-not-None; neither present
raises; a present percent must lie in (0, 100]; a present amount must be
positive. Note the source comment says "(but not both)" but no both-present
check exists in the code. -/
def validateTrailFields (trail_percent trail_amount : Option ℚ) :
    Except String (Option ℚ × Option ℚ) := do
  let has_percent := trail_percent.isSome
  let has_amount := trail_amount.isSome
  if ¬has_percent ∧ ¬has_amount then
    throw "TRAIL order requires either trail_percent or trail_amount"
  let normalized_percent ← match trail_percent with
    | some p =>
        if p ≤ 0 ∨ p > 100 then throw "Trail percent must be between 0 and 100"
        else pure (some p)
    | none => pure (none : Option ℚ)
  let normalized_amount ← match trail_amount with
    | some a =>
        if a ≤ 0 then throw "Trail amount must be positive"
        else pure (some a)
    | none => pure (none : Option ℚ)
  return (normalized_percent, normalized_amount)

/-- The `order_params` dict passed to `Broker.validate_ibkr_order_type`;
`isSome` models key presence (the Python code only tests `in`). -/
structure OrderParams where
  trail_amount : Option ℚ := none
  trail_percent : Option ℚ := none
  limit_price : Option ℚ := none
  stop_price : Option ℚ := none
  offset_amount : Option ℚ := none
deriving DecidableEq

/-- `Broker.validate_ibkr_order_type` (broker.py 691–710): TRAIL needs
`trail_amount` OR `trail_percent` present; `STP LMT` needs both prices;
pegged types need an offset; MIT/LIT need a stop price; all else passes. -/
def Broker.validate_ibkr_order_type (order_type : String) (p : OrderParams) : Bool :=
  if order_type = "TRAIL" then p.trail_amount.isSome || p.trail_percent.isSome
  else if order_type = "STP LMT" then p.limit_price.isSome && p.stop_price.isSome
  else if order_type = "PEGMKT" ∨ order_type = "PEGMID" then p.offset_amount.isSome
  else if order_type = "MIT" ∨ order_type = "LIT" then p.stop_price.isSome
  else true

/-- `OrderAction` enum (gallump2_trading/core/types.py 9–11). -/
inductive OrderAction where
  | BUY
  | SELL
deriving DecidableEq

/-- `OrderType` enum (gallump2_trading/core/types.py 13–18). -/
inductive OrderType where
  | MARKET
  | LIMIT
  | STOP
  | STOP_LIMIT
  | TRAILING_STOP
deriving DecidableEq

/-- `Order` dataclass (gallump2_trading/core/types.py 55–65), restricted to the
fields `OrderValidator.validate` reads; Decimal fields as `Option ℚ`. -/
structure NextOrder where
  symbol : String
  action : OrderAction
  quantity : ℚ
  order_type : OrderType
  limit_price : Option ℚ := none
  stop_price : Option ℚ := none
  trail_amount : Option ℚ := none
  trail_percent : Option ℚ := none
deriving DecidableEq

/-- Python truthiness of an `Optional[Decimal]`: `None` and `0` are falsy. -/
def truthy : Option ℚ → Bool
  | none => false
  | some x => decide (x ≠ 0)

/-- Python `not x or x <= bound` on an `Optional[Decimal]` (short-circuit:
the comparison is reached only when `x` is truthy). -/
def falsyOrLe (x : Option ℚ) (bound : ℚ) : Bool :=
  match x with
  | none => true
  | some v => decide (v = 0 ∨ v ≤ bound)

/-- Python `x > bound` on an `Optional[Decimal]` with no truthiness guard:
comparing `None` with a `Decimal` raises `TypeError`. -/
def pyGt (x : Option ℚ) (bound : ℚ) : Except String Bool :=
  match x with
  | none => throw "TypeError: comparison of NoneType and Decimal"
  | some v => pure (decide (v > bound))

/-- `OrderValidator.validate` (order_validator.py 9–79), statement by
statement. Returns `(len(errors) == 0, errors)`; an unguarded comparison of a
`None` price with a bound surfaces as `Except.error` (Python `TypeError`).
The `action not in [BUY, SELL]` check of the source can never fire on the
enum and is kept as a vacuous test. -/
def OrderValidator.validate (o : NextOrder) : Except String (Bool × List String) := do
  let errors : List String := []
  let errors := if o.quantity ≤ 0 then errors ++ ["Quantity must be positive"] else errors
  let errors := if o.quantity > 100000 then
      errors ++ ["Quantity exceeds maximum allowed (100,000)"] else errors
  let errors := if o.symbol = "" then errors ++ ["Symbol is required"] else errors
  let errors := if o.symbol.length > 10 then
      errors ++ ["Symbol is too long (max 10 characters)"] else errors
  let errors := if ¬(o.action = .BUY ∨ o.action = .SELL) then
      errors ++ ["Invalid action"] else errors
  let errors ← if o.order_type = .LIMIT then do
      let errors := if falsyOrLe o.limit_price 0 then
          errors ++ ["Limit orders require valid limit price"] else errors
      let over ← pyGt o.limit_price 100000
      pure (if over then errors ++ ["Limit price exceeds maximum (100,000)"] else errors)
    else pure errors
  let errors ← if o.order_type = .STOP ∨ o.order_type = .STOP_LIMIT then do
      let errors := if falsyOrLe o.stop_price 0 then
          errors ++ ["Stop orders require valid stop price"] else errors
      let over ← pyGt o.stop_price 100000
      pure (if over then errors ++ ["Stop price exceeds maximum (100,000)"] else errors)
    else pure errors
  let errors := if o.order_type = .STOP_LIMIT ∧ falsyOrLe o.limit_price 0 then
      errors ++ ["Stop limit orders require valid limit price"] else errors
  let errors :=
    if o.order_type = .TRAILING_STOP then
      let errors := if ¬truthy o.trail_amount ∧ ¬truthy o.trail_percent then
          errors ++ ["Trailing stop requires amount or percent"] else errors
      let errors := if truthy o.trail_amount ∧ truthy o.trail_percent then
          errors ++ ["Trailing stop cannot have both amount and percent"] else errors
      let errors :=
        if truthy o.trail_amount then
          let errors := if o.trail_amount.getD 0 ≤ 0 then
              errors ++ ["Trail amount must be positive"] else errors
          if o.trail_amount.getD 0 > 1000 then
              errors ++ ["Trail amount exceeds maximum (1000)"] else errors
        else errors
      if truthy o.trail_percent then
        let errors := if o.trail_percent.getD 0 ≤ 0 then
            errors ++ ["Trail percent must be positive"] else errors
        if o.trail_percent.getD 0 > 50 then
            errors ++ ["Trail percent exceeds maximum (50%)"] else errors
      else errors
    else errors
  let errors :=
    if o.order_type = .MARKET then
      let errors := if truthy o.limit_price then
          errors ++ ["Market orders should not have limit price"] else errors
      if truthy o.stop_price then
          errors ++ ["Market orders should not have stop price"] else errors
    else errors
  return (errors.length = 0, errors)

/-! ## Orders, the store and the Reconciler

`gallump/core/types.py` (`PendingOrder`, `BracketOrder`) and
`gallump/core/storage.py` (`Storage.sync_pending_orders`, lines 676–728). -/

/-- `PendingOrder` dataclass (types.py 155–202); also the column set of the
`pending_orders` row that `sync_pending_orders` writes (storage.py 151–195,
704–720) — the INSERT mirrors the dataclass field for field. The SQLite
surrogate `id` and the wall-clock `last_updated` column are not modelled;
datetime-valued fields are carried as opaque strings. -/
structure PendingOrder where
  order_id : String
  symbol : String := ""
  action : String := "BUY"
  quantity : ℤ := 0
  order_type : String := "MKT"
  limit_price : Option ℚ := none
  stop_price : Option ℚ := none
  trail_amount : Option ℚ := none
  trail_percent : Option ℚ := none
  offset_amount : Option ℚ := none
  midpoint_offset : Option ℚ := none
  time_in_force : String := "DAY"
  good_after_time : Option String := none
  good_till_date : Option String := none
  status : String := "PendingSubmit"
  filled_quantity : ℤ := 0
  remaining_quantity : ℤ := 0
  avg_fill_price : Option ℚ := none
  parent_id : Option String := none
  oca_group : Option String := none
  submitted_at : String := ""
  strategy_id : Option ℤ := none
  notes : Option String := none
  asset_type : String := "STOCK"
  option_type : Option String := none
  strike : Option ℚ := none
  expiry : Option String := none
deriving DecidableEq

/-- The durable store: the `pending_orders` table as a list of rows. The
`order_id` column is `UNIQUE NOT NULL` (storage.py 153); theorems needing
that constraint take it as a `Nodup` hypothesis. -/
abbrev Store := List PendingOrder

/-- The four statuses selected by the reconciler's open-set query
(storage.py 686–689). -/
def openStatuses : List String :=
  ["PendingSubmit", "PreSubmitted", "Submitted", "PendingCancel"]

/-- `SELECT order_id FROM pending_orders WHERE status IN (open statuses)`
(storage.py 686–690). -/
def dbOpenIds (store : Store) : List String :=
  (store.filter (fun r => decide (r.status ∈ openStatuses))).map (·.order_id)

/-- `missing_ids = db_order_ids - live_order_ids` (storage.py 690–696). -/
def missingIds (store : Store) (live_ids : List String) : List String :=
  (dbOpenIds store).filter (fun i => decide (i ∉ live_ids))

/-- The implicit-fill pass (storage.py 696–703): every open order id absent
from the live snapshot is updated to `Filled`, but the UPDATE's extra guard
skips rows whose status is already `Filled` or `Cancelled`. -/
def markMissingFilled (store : Store) (live_ids : List String) : Store :=
  store.map (fun r =>
    if r.order_id ∈ missingIds store live_ids ∧
        r.status ∉ (["Filled", "Cancelled"] : List String) then
      { r with status := "Filled" }
    else r)

/-- `INSERT OR REPLACE INTO pending_orders ...` (storage.py 704–720): replaces
the row carrying the same UNIQUE `order_id` when present, else inserts. -/
def upsertRow (store : Store) (o : PendingOrder) : Store :=
  if store.any (fun r => decide (r.order_id = o.order_id)) then
    store.map (fun r => if r.order_id = o.order_id then o else r)
  else store ++ [o]

/-- `Storage.sync_pending_orders` (storage.py 676–728): mark the vanished open
orders `Filled`, then upsert every live order's full field set. -/
def Storage.sync_pending_orders (live_orders : List PendingOrder) (store : Store) :
    Store :=
  live_orders.foldl upsertRow (markMissingFilled store (live_orders.map (·.order_id)))

/-- Concrete open store row used by the reconciler witnesses. -/
def rowA : PendingOrder := { order_id := "A", status := "Submitted" }

/-- Concrete Cancelled store row used by the reconciler witnesses. -/
def rowB : PendingOrder := { order_id := "B", status := "Cancelled" }

/-- Concrete live order used by the reconciler witnesses. -/
def rowC : PendingOrder := { order_id := "C", status := "Submitted" }

/-- `BracketOrder` dataclass (types.py 256–263). -/
structure BracketOrder where
  main_order : PendingOrder
  profit_target : Option PendingOrder := none
  stop_loss : Option PendingOrder := none
  oca_group : String := ""
deriving DecidableEq

/-- `BracketOrder.get_all_orders` (types.py 265–272): the main order plus the
truthy (present) exit legs. -/
def BracketOrder.get_all_orders (b : BracketOrder) : List PendingOrder :=
  [b.main_order]
    ++ (match b.profit_target with | some o => [o] | none => [])
    ++ (match b.stop_loss with | some o => [o] | none => [])

/-- `BracketOrder.get_status` (types.py 280–295): a main order with falsy
(zero) `filled_quantity` reports the main status; otherwise `Bracket Closed`
when any exit leg is `Filled`, else `Managing Position` when any exit leg is
`Submitted`/`PreSubmitted`, else `Bracket Active`. Exit legs are the
assembled orders different (by value, as in the Python `!=`) from the main
order. -/
def BracketOrder.get_status (b : BracketOrder) : String :=
  if b.main_order.filled_quantity = 0 then b.main_order.status
  else
    let exit_orders := b.get_all_orders.filter (fun o => decide (o ≠ b.main_order))
    if exit_orders.any (fun o => decide (o.status = "Filled")) then "Bracket Closed"
    else if exit_orders.any
        (fun o => decide (o.status = "Submitted" ∨ o.status = "PreSubmitted")) then
      "Managing Position"
    else "Bracket Active"

/-- The exit legs of an assembled bracket, as `get_status` selects them. -/
def BracketOrder.exitLegs (b : BracketOrder) : List PendingOrder :=
  b.get_all_orders.filter (fun o => decide (o ≠ b.main_order))

/-! ## Connection pool — `gallump_next/core/connection_pool.py`

Real time is abstracted away: `asyncio.wait_for(self.available.get(), timeout)`
with every connection checked out (no producer to refill the queue) is exactly
the timeout outcome, so checkout on an empty `available` queue is modelled as
the `TimeoutError` result. A `ConnectionManager` is summarised by the two
probes checkout uses: `is_connected()` now, and whether a `connect()` attempt
would succeed. -/

/-- A pool slot's `ConnectionManager`, as seen by `get_connection`. -/
structure ConnectionManager where
  client_id : ℕ
  connected : Bool
  reconnects : Bool
deriving DecidableEq

/-- `ConnectionPool` state (connection_pool.py 11–20): the owned connection
list, the FIFO `available` queue, the `in_use` list, and the configured
maximum. -/
structure PoolState where
  connections : List ConnectionManager
  available : List ConnectionManager
  in_use : List ConnectionManager
  max_connections : ℕ
deriving DecidableEq

/-- Outcome of `ConnectionPool.get_connection`: a checked-out connection with
the updated pool state, or `TimeoutError("No connections available ...")`. -/
inductive CheckoutResult where
  | ok (conn : ConnectionManager) (s : PoolState)
  | timeoutError
deriving DecidableEq

/-- The checkout loop of `get_connection` (connection_pool.py 48–69) on the
queue contents: an empty queue times out; a dequeued connection that is
connected (or reconnects successfully, which marks it connected) is appended
to `in_use` and returned; a dead, unreconnectable connection is dropped and
checkout recurses on the rest of the queue. -/
def getConnectionLoop : List ConnectionManager → PoolState → CheckoutResult
  | [], _ => .timeoutError
  | c :: rest, s =>
      if c.connected then
        .ok c { s with available := rest, in_use := s.in_use ++ [c] }
      else if c.reconnects then
        let c' := { c with connected := true }
        .ok c' { s with available := rest, in_use := s.in_use ++ [c'] }
      else getConnectionLoop rest { s with available := rest }

/-- `ConnectionPool.get_connection` (connection_pool.py 48–69). -/
def ConnectionPool.get_connection (s : PoolState) : CheckoutResult :=
  getConnectionLoop s.available s

/-! ## Gateway request counters and health — `gallump/core/broker.py`

Each gateway method is embedded by its effect on the two counters
(`total_request_count`, `failed_request_count`, broker.py 58–59), with a
boolean recording whether the call's body succeeded or raised. -/

/-- The broker's health counters (broker.py 58–59). -/
structure RequestCounters where
  total_request_count : ℕ
  failed_request_count : ℕ
deriving DecidableEq

/-- `Broker._track_request_success` (broker.py 912–915). -/
def track_request_success (c : RequestCounters) : RequestCounters :=
  { c with total_request_count := c.total_request_count + 1 }

/-- `Broker._track_request_failure` (broker.py 917–920). -/
def track_request_failure (c : RequestCounters) : RequestCounters :=
  { total_request_count := c.total_request_count + 1
    failed_request_count := c.failed_request_count + 1 }

/-- Counter effect of a gateway method that tracks both outcomes
(`_track_request_success` on the success path, `_track_request_failure` in the
exception handler). -/
def trackedCall (c : RequestCounters) (ok : Bool) : RequestCounters :=
  if ok then track_request_success c else track_request_failure c

/-- `Broker.get_positions` (broker.py 140–175): the not-connected guard
(142–144) and the not-ready guard (146–148) each `return []` before the try
block and update neither counter; past both guards the body is tracked on
both outcomes. -/
def get_positions_counters (c : RequestCounters) (connected ready ok : Bool) :
    RequestCounters :=
  if ¬connected then c
  else if ¬ready then c
  else trackedCall c ok

/-- `Broker.get_portfolio` (broker.py 504–571): the not-connected guard
(506–507) and the not-ready guard (509–510) each raise before the try block
and update neither counter; past both guards the body is tracked on both
outcomes. -/
def get_portfolio_counters (c : RequestCounters) (connected ready ok : Bool) :
    RequestCounters :=
  if ¬connected then c
  else if ¬ready then c
  else trackedCall c ok

/-- `Broker.get_open_orders` (broker.py 572–597): the not-connected guard
(575–576) is a `return []` inside the try that raises nothing and updates
neither counter; past it the body is tracked on both outcomes. -/
def get_open_orders_counters (c : RequestCounters) (connected ok : Bool) :
    RequestCounters :=
  if ¬connected then c else trackedCall c ok

/-- `Broker.get_enhanced_open_orders` (broker.py 599–689): the not-connected
guard (608–610) is a `return []` inside the try that raises nothing and
updates neither counter; past it the body is tracked on both outcomes. -/
def get_enhanced_open_orders_counters (c : RequestCounters) (connected ok : Bool) :
    RequestCounters :=
  if ¬connected then c else trackedCall c ok

/-- `Broker.place_bracket_order` (broker.py 750–817): the not-connected guard
raises inside the try (762–763), so even that path is tracked, as a failure;
tracked on every path. -/
def place_bracket_order_counters (c : RequestCounters) (ok : Bool) : RequestCounters :=
  trackedCall c ok

/-- `Broker.place_trailing_stop_order` (broker.py 819–863): the not-connected
guard raises inside the try (828–829), so even that path is tracked, as a
failure; tracked on every path. -/
def place_trailing_stop_order_counters (c : RequestCounters) (ok : Bool) :
    RequestCounters :=
  trackedCall c ok

/-- `Broker.modify_order` (broker.py 865–910): the not-connected guard raises
inside the try (871–872), so even that path is tracked, as a failure; tracked
on every path. -/
def modify_order_counters (c : RequestCounters) (ok : Bool) : RequestCounters :=
  trackedCall c ok

/-- `Broker.place_order` (broker.py 438–482): NO `_track_request_*` call on
any path — the counters are untouched whether the placement succeeds or
raises. -/
def place_order_counters (c : RequestCounters) (_ok : Bool) : RequestCounters :=
  c

/-- `Broker.cancel_order` (broker.py 484–503): NO `_track_request_*` call on
any path. -/
def cancel_order_counters (c : RequestCounters) (_ok : Bool) : RequestCounters :=
  c

/-- The `success_rate` field of `Broker.get_connection_health`
(broker.py 922–937): `(total - failed) / total` when any request was made,
else `0`. -/
def success_rate (c : RequestCounters) : ℚ :=
  if c.total_request_count > 0 then
    ((c.total_request_count : ℚ) - c.failed_request_count) / c.total_request_count
  else 0

/-- Stop-loss leg, still Submitted, of the mixed bracket below. -/
def stopLegOpen : PendingOrder := { order_id := "3", status := "Submitted" }

/-- Bracket with a filled main order, a filled profit target and a still-open
(Submitted) stop-loss leg. -/
def bracketMixed : BracketOrder :=
  { main_order := { order_id := "1", status := "Filled", filled_quantity := 100 }
    profit_target := some { order_id := "2", status := "Filled" }
    stop_loss := some stopLegOpen
    oca_group := "OCA1" }

/-- A healthy pool connection used by the pool witnesses. -/
def connA : ConnectionManager := { client_id := 1, connected := true, reconnects := true }

/-- A pool whose single connection is checked out: `available` is empty. -/
def poolDrained : PoolState :=
  { connections := [connA], available := [], in_use := [connA], max_connections := 3 }

/-- A pool with its single connection available. -/
def poolReady : PoolState :=
  { connections := [connA], available := [connA], in_use := [], max_connections := 3 }

/-- The claim's notion of "largest quantity whose notional value satisfies the
configured position-size fraction of the portfolio's total value": `r`
satisfies the constraint and dominates every integer quantity satisfying it. -/
def IsLargestSafeQuantity (cfg : RiskConfig) (t : Trade) (p : Portfolio) (r : ℚ) : Prop :=
  r * t.price ≤ cfg.max_position_pct * p.total_value ∧
  ∀ m : ℤ, (m : ℚ) * t.price ≤ cfg.max_position_pct * p.total_value → (m : ℚ) ≤ r

end Gallump

namespace Gallump

/-! ## Theorems -/

/-! ### Reconciler lemmas -/

/-- A map that fixes every member of a list is the identity on it. -/
theorem list_map_eq_self {α : Type} (l : List α) (f : α → α)
    (h : ∀ a ∈ l, f a = a) : l.map f = l := by
  induction l with
  | nil => rfl
  | cons a t ih =>
      simp only [List.map_cons, h a (List.mem_cons_self a t)]
      rw [ih (fun b hb => h b (List.mem_cons_of_mem a hb))]

/-- Upserting an order leaves it present in the store. -/
theorem mem_upsertRow_self (u : Store) (o : PendingOrder) : o ∈ upsertRow u o := by
  unfold upsertRow
  split
  · next h =>
      rcases List.any_eq_true.1 h with ⟨x, hx, hid⟩
      have hfx : (fun r => if r.order_id = o.order_id then o else r) x = o := by
        simp [of_decide_eq_true hid]
      have hmem := List.mem_map_of_mem
        (fun r => if r.order_id = o.order_id then o else r) hx
      rwa [hfx] at hmem
  · exact List.mem_append_right _ (List.mem_singleton.2 rfl)

/-- Upserting under a different order id preserves membership. -/
theorem mem_upsertRow_of_ne (u : Store) (o r : PendingOrder) (hr : r ∈ u)
    (hne : r.order_id ≠ o.order_id) : r ∈ upsertRow u o := by
  unfold upsertRow
  split
  · have hfx : (fun x => if x.order_id = o.order_id then o else x) r = r := if_neg hne
    have hmem := List.mem_map_of_mem
      (fun x => if x.order_id = o.order_id then o else x) hr
    rwa [hfx] at hmem
  · exact List.mem_append_left _ hr

/-- A row whose order id never occurs in the upserted batch survives the
whole upsert fold. -/
theorem mem_foldl_upsert_of_not_touched (l : List PendingOrder) :
    ∀ (u : Store) (r : PendingOrder), r ∈ u → r.order_id ∉ l.map (·.order_id) →
      r ∈ l.foldl upsertRow u := by
  induction l with
  | nil => intro u r hr _; simpa using hr
  | cons a t ih =>
      intro u r hr hid
      simp only [List.map_cons, List.mem_cons, not_or] at hid
      exact ih (upsertRow u a) r (mem_upsertRow_of_ne u a r hr hid.1) hid.2

/-- Every order of an id-unique batch is present after the upsert fold. -/
theorem mem_foldl_upsert_self (l : List PendingOrder) :
    ∀ (u : Store) (o : PendingOrder), o ∈ l → (l.map (·.order_id)).Nodup →
      o ∈ l.foldl upsertRow u := by
  induction l with
  | nil => intro u o ho _; cases ho
  | cons a t ih =>
      intro u o ho hnd
      simp only [List.map_cons, List.nodup_cons] at hnd
      rcases List.mem_cons.1 ho with rfl | ho'
      · exact mem_foldl_upsert_of_not_touched t (upsertRow u o) o
          (mem_upsertRow_self u o) hnd.1
      · exact ih (upsertRow u a) o ho' hnd.2

/-- A row of an upserted store is the upserted order or an original row. -/
theorem mem_of_mem_upsertRow (u : Store) (o r' : PendingOrder)
    (h : r' ∈ upsertRow u o) : r' = o ∨ r' ∈ u := by
  unfold upsertRow at h
  split at h
  · rcases List.mem_map.1 h with ⟨x, hx, hfx⟩
    by_cases hxo : x.order_id = o.order_id
    · left; rw [← hfx]; simp [hxo]
    · right; rw [← hfx]; simpa [hxo] using hx
  · rcases List.mem_append.1 h with h1 | h1
    · right; exact h1
    · left; simpa using h1

/-- A row of the upsert-folded store is a batch order or an original row. -/
theorem mem_of_mem_foldl_upsert (l : List PendingOrder) :
    ∀ (u : Store) (r' : PendingOrder), r' ∈ l.foldl upsertRow u → r' ∈ l ∨ r' ∈ u := by
  induction l with
  | nil => intro u r' h; exact Or.inr (by simpa using h)
  | cons a t ih =>
      intro u r' h
      rcases ih (upsertRow u a) r' h with h1 | h1
      · exact Or.inl (List.mem_cons_of_mem a h1)
      · rcases mem_of_mem_upsertRow u a r' h1 with h2 | h2
        · exact Or.inl (by rw [h2]; exact List.mem_cons_self a t)
        · exact Or.inr h2

/-- A folded-store row whose id never occurs in the batch is an original row. -/
theorem mem_base_of_mem_foldl_upsert (l : List PendingOrder) :
    ∀ (u : Store) (r' : PendingOrder), r' ∈ l.foldl upsertRow u →
      r'.order_id ∉ l.map (·.order_id) → r' ∈ u := by
  induction l with
  | nil => intro u r' h _; simpa using h
  | cons a t ih =>
      intro u r' h hid
      simp only [List.map_cons, List.mem_cons, not_or] at hid
      have h' : r' ∈ upsertRow u a := ih (upsertRow u a) r' h hid.2
      rcases mem_of_mem_upsertRow u a r' h' with h2 | h2
      · exact absurd (by rw [h2] : r'.order_id = a.order_id) hid.1
      · exact h2

/-- After an upsert, any row carrying the upserted id is the upserted order. -/
theorem eq_of_mem_upsertRow_of_id (u : Store) (o r' : PendingOrder)
    (h : r' ∈ upsertRow u o) (hid : r'.order_id = o.order_id) : r' = o := by
  unfold upsertRow at h
  split at h
  · rcases List.mem_map.1 h with ⟨x, hx, hfx⟩
    by_cases hxo : x.order_id = o.order_id
    · rw [← hfx]; simp [hxo]
    · have hxr : x = r' := by simpa [hxo] using hfx
      exact absurd (hxr ▸ hid) hxo
  · next hany =>
      rcases List.mem_append.1 h with h1 | h1
      · exfalso
        exact hany (List.any_eq_true.2 ⟨r', h1, by simp [hid]⟩)
      · simpa using h1

/-- After folding an id-unique batch, any row carrying a batch order's id is
that batch order. -/
theorem foldl_upsert_unique (l : List PendingOrder) :
    ∀ (u : Store) (o r' : PendingOrder), (l.map (·.order_id)).Nodup → o ∈ l →
      r' ∈ l.foldl upsertRow u → r'.order_id = o.order_id → r' = o := by
  induction l with
  | nil => intro u o r' _ ho _ _; cases ho
  | cons a t ih =>
      intro u o r' hnd ho h hid
      simp only [List.map_cons, List.nodup_cons] at hnd
      rcases List.mem_cons.1 ho with rfl | ho'
      · have h' : r' ∈ upsertRow u o :=
          mem_base_of_mem_foldl_upsert t (upsertRow u o) r' h (by rw [hid]; exact hnd.1)
        exact eq_of_mem_upsertRow_of_id u o r' h' hid
      · exact ih (upsertRow u a) o r' hnd.2 ho' h hid

/-- Folding a batch on which every single upsert is a fixpoint is the
identity. -/
theorem foldl_upsert_fixed (l : List PendingOrder) :
    ∀ u : Store, (∀ o ∈ l, upsertRow u o = u) → l.foldl upsertRow u = u := by
  induction l with
  | nil => intro u _; rfl
  | cons a t ih =>
      intro u h
      have ha := h a (List.mem_cons_self a t)
      simp only [List.foldl_cons, ha]
      exact ih u (fun o ho => h o (List.mem_cons_of_mem a ho))

/-- No open status is `Filled` or `Cancelled`. -/
theorem open_status_not_terminal (s : String) (hs : s ∈ openStatuses) :
    s ∉ (["Filled", "Cancelled"] : List String) := by
  simp only [openStatuses, List.mem_cons, List.mem_singleton] at hs
  rcases hs with rfl | rfl | rfl | rfl | h
  · decide
  · decide
  · decide
  · decide
  · cases h

/-- **C2** — one reconcile pass: every store row with an open (non-terminal)
status whose order id is absent from the live snapshot is re-recorded with
status `Filled`, and every live order's full field set is upserted as the row
keyed by its order id (snapshot ids are unique: the table key is the gateway
order id). -/
theorem sync_marks_missing_and_upserts_live (store : Store)
    (live : List PendingOrder) (hnd : (live.map (·.order_id)).Nodup) :
    (∀ r ∈ store, r.status ∈ openStatuses →
        r.order_id ∉ live.map (·.order_id) →
        { r with status := "Filled" } ∈ Storage.sync_pending_orders live store) ∧
    (∀ o ∈ live, o ∈ Storage.sync_pending_orders live store) := by
  constructor
  · intro r hr hopen habs
    have hcond : r.order_id ∈ missingIds store (live.map (·.order_id)) ∧
        r.status ∉ (["Filled", "Cancelled"] : List String) := by
      refine ⟨List.mem_filter.2 ⟨?_, by simpa using habs⟩,
        open_status_not_terminal _ hopen⟩
      exact List.mem_map_of_mem _ (List.mem_filter.2 ⟨hr, by simpa using hopen⟩)
    have hmark : { r with status := "Filled" } ∈
        markMissingFilled store (live.map (·.order_id)) := by
      have hfx : (fun r' =>
          if r'.order_id ∈ missingIds store (live.map (·.order_id)) ∧
              r'.status ∉ (["Filled", "Cancelled"] : List String) then
            { r' with status := "Filled" }
          else r') r = { r with status := "Filled" } := if_pos hcond
      have hmem := List.mem_map_of_mem (fun r' =>
          if r'.order_id ∈ missingIds store (live.map (·.order_id)) ∧
              r'.status ∉ (["Filled", "Cancelled"] : List String) then
            { r' with status := "Filled" }
          else r') hr
      rwa [hfx] at hmem
    exact mem_foldl_upsert_of_not_touched live _ _ hmark (by simpa using habs)
  · intro o ho
    exact mem_foldl_upsert_self live _ o ho hnd

/-- Witness for C2: with live snapshot `[C (Submitted)]`, the store row
`A (Submitted)` (absent from the snapshot) reappears marked `Filled`. -/
theorem sync_marks_missing_witness :
    { rowA with status := "Filled" } ∈
      Storage.sync_pending_orders [rowC] [rowA, rowB] :=
  (sync_marks_missing_and_upserts_live [rowA, rowB] [rowC] (by decide)).1
    rowA (by decide) (by decide) (by decide)

/-- **C10** — frame property of a reconcile pass: a store row whose status is
outside the reconciler's open set (in particular `Filled`, `Cancelled` or
`Inactive`) and whose order id is absent from the live snapshot is carried
into the result unchanged, and every result row with that order id is that
unchanged row (order ids are unique in the store, per the table's UNIQUE
constraint); so a Cancelled order that vanished from the gateway is never
rewritten as Filled. -/
theorem sync_never_touches_terminal_absent (store : Store)
    (live : List PendingOrder) (hnd : (store.map (·.order_id)).Nodup)
    (r : PendingOrder) (hr : r ∈ store) (hterm : r.status ∉ openStatuses)
    (habs : r.order_id ∉ live.map (·.order_id)) :
    r ∈ Storage.sync_pending_orders live store ∧
    (∀ r' ∈ Storage.sync_pending_orders live store,
      r'.order_id = r.order_id → r' = r) := by
  have hnotmiss : r.order_id ∉ missingIds store (live.map (·.order_id)) := by
    intro hmem
    rcases List.mem_filter.1 hmem with ⟨hopen, _⟩
    rcases List.mem_map.1 hopen with ⟨r₀, hr₀f, hid₀⟩
    rcases List.mem_filter.1 hr₀f with ⟨hr₀, hst₀⟩
    have hr₀r : r₀ = r := List.inj_on_of_nodup_map hnd hr₀ hr hid₀
    exact hterm (by rw [← hr₀r]; exact of_decide_eq_true hst₀)
  have hmarkfix : ∀ r₀ ∈ store, r₀.order_id = r.order_id →
      (if r₀.order_id ∈ missingIds store (live.map (·.order_id)) ∧
          r₀.status ∉ (["Filled", "Cancelled"] : List String) then
        { r₀ with status := "Filled" } else r₀) = r₀ := by
    intro r₀ _ hid₀
    exact if_neg (fun hc => hnotmiss (hid₀ ▸ hc.1))
  have hmark : r ∈ markMissingFilled store (live.map (·.order_id)) :=
    List.mem_map.2 ⟨r, hr, hmarkfix r hr rfl⟩
  refine ⟨mem_foldl_upsert_of_not_touched live _ r hmark habs, ?_⟩
  intro r' hr' hid
  have h1 : r' ∈ markMissingFilled store (live.map (·.order_id)) :=
    mem_base_of_mem_foldl_upsert live _ r' hr' (by rw [hid]; exact habs)
  rcases List.mem_map.1 h1 with ⟨r₀, hr₀, hfx⟩
  have hid₀ : r₀.order_id = r.order_id := by
    rw [← hid, ← hfx]
    split
    · rfl
    · rfl
  have hr₀r : r₀ = r := List.inj_on_of_nodup_map hnd hr₀ hr hid₀
  rw [← hfx, hmarkfix r₀ hr₀ hid₀, hr₀r]

/-- Witness for C10: the Cancelled row `B`, absent from the live snapshot,
survives the pass unchanged (it is not rewritten to Filled). -/
theorem sync_never_touches_terminal_witness :
    rowB ∈ Storage.sync_pending_orders [rowC] [rowA, rowB] :=
  (sync_never_touches_terminal_absent [rowA, rowB] [rowC] (by decide)
    rowB (by decide) (by decide) (by decide)).1

/-- **C3** — the reconcile pass is idempotent: replaying the same live
snapshot (snapshot ids are unique, being gateway order ids) a second time
leaves the store state of the first pass identical. -/
theorem sync_idempotent (store : Store) (live : List PendingOrder)
    (hnd : (live.map (·.order_id)).Nodup) :
    Storage.sync_pending_orders live (Storage.sync_pending_orders live store) =
      Storage.sync_pending_orders live store := by
  have hopen_live : ∀ r' ∈ Storage.sync_pending_orders live store,
      r'.status ∈ openStatuses → r'.order_id ∈ live.map (·.order_id) := by
    intro r' hr' hopen
    rcases mem_of_mem_foldl_upsert live _ r' hr' with h1 | h1
    · exact List.mem_map_of_mem _ h1
    · rcases List.mem_map.1 h1 with ⟨r₀, hr₀, hfx⟩
      by_contra habs
      by_cases hc : r₀.order_id ∈ missingIds store (live.map (·.order_id)) ∧
          r₀.status ∉ (["Filled", "Cancelled"] : List String)
      · rw [← hfx, if_pos hc] at hopen
        exact absurd (show "Filled" ∈ openStatuses from hopen) (by decide)
      · rw [← hfx, if_neg hc] at hopen habs
        apply hc
        refine ⟨List.mem_filter.2 ⟨?_, by simpa using habs⟩,
          open_status_not_terminal _ hopen⟩
        exact List.mem_map_of_mem _ (List.mem_filter.2 ⟨hr₀, by simpa using hopen⟩)
  have hmiss : missingIds (Storage.sync_pending_orders live store)
      (live.map (·.order_id)) = [] := by
    apply List.filter_eq_nil_iff.2
    intro x hx
    rcases List.mem_map.1 hx with ⟨r', hr'f, hid⟩
    rcases List.mem_filter.1 hr'f with ⟨hr', hst⟩
    simp only [decide_not, Bool.not_eq_true', decide_eq_false_iff_not, not_not]
    rw [← hid]
    exact hopen_live r' hr' (of_decide_eq_true hst)
  have hmark : markMissingFilled (Storage.sync_pending_orders live store)
      (live.map (·.order_id)) = Storage.sync_pending_orders live store := by
    unfold markMissingFilled
    apply list_map_eq_self
    intro a _
    rw [hmiss]
    exact if_neg (fun hc => by simpa using hc.1)
  have hupserts : ∀ o ∈ live,
      upsertRow (Storage.sync_pending_orders live store) o =
        Storage.sync_pending_orders live store := by
    intro o ho
    have hoin : o ∈ Storage.sync_pending_orders live store :=
      mem_foldl_upsert_self live _ o ho hnd
    unfold upsertRow
    rw [if_pos (List.any_eq_true.2 ⟨o, hoin, by simp⟩)]
    apply list_map_eq_self
    intro r' hr'
    by_cases hid : r'.order_id = o.order_id
    · rw [if_pos hid, foldl_upsert_unique live _ o r' hnd ho hr' hid]
    · exact if_neg hid
  calc Storage.sync_pending_orders live (Storage.sync_pending_orders live store)
      = live.foldl upsertRow
          (markMissingFilled (Storage.sync_pending_orders live store)
            (live.map (·.order_id))) := rfl
    _ = live.foldl upsertRow (Storage.sync_pending_orders live store) := by
          rw [hmark]
    _ = Storage.sync_pending_orders live store := foldl_upsert_fixed live _ hupserts

/-- Witness for C3: replaying the one-order snapshot over a two-row store. -/
theorem sync_idempotent_witness :
    Storage.sync_pending_orders [rowC]
        (Storage.sync_pending_orders [rowC] [rowA, rowB]) =
      Storage.sync_pending_orders [rowC] [rowA, rowB] :=
  sync_idempotent [rowA, rowB] [rowC] (by decide)

/-- **C1** — claimed: for every TRAIL order, validation succeeds iff exactly
one of trail_amount/trail_percent is set; both set must fail. The code
disagrees with its own comment ("Must have either trail_percent or
trail_amount (but not both)", validators.py 173): at the failing input
(TRAIL, trail_percent = 10, trail_amount = 5) `validate_order` accepts and
`Broker.validate_ibkr_order_type` accepts, while the gallump_next
`OrderValidator.validate` rejects with the both-set error; with neither set
all validators reject. -/
theorem trail_both_set_accepted_by_legacy_validators :
    validateTrailFields (some 10) (some 5) = .ok (some 10, some 5) ∧
    Broker.validate_ibkr_order_type "TRAIL"
      { trail_amount := some 5, trail_percent := some 10 } = true ∧
    OrderValidator.validate
      { symbol := "AAPL", action := .BUY, quantity := 1,
        order_type := .TRAILING_STOP, trail_amount := some 5,
        trail_percent := some 10 } =
      .ok (false, ["Trailing stop cannot have both amount and percent"]) ∧
    validateTrailFields none none =
      .error "TRAIL order requires either trail_percent or trail_amount" := by
  exact ⟨rfl, rfl, rfl, rfl⟩

/-- **C4** — a trade whose position fraction (notional over the `or 1`-guarded
total value) exceeds the configured maximum is never approved, a
warning carrying that fraction and the configured limit is emitted, and the
open-position-count violation is still reported alongside it (no
short-circuit). -/
theorem evaluate_rejects_oversized_and_accumulates (cfg : RiskConfig) (t : Trade)
    (p : Portfolio)
    (h : t.quantity * t.price / orOne p.total_value > cfg.max_position_pct) :
    (RiskManager.evaluate cfg t p).approved = false ∧
    RiskWarning.positionTooLarge (t.quantity * t.price / orOne p.total_value)
        cfg.max_position_pct ∈ (RiskManager.evaluate cfg t p).warnings ∧
    (p.positions.length ≥ cfg.max_positions →
      RiskWarning.tooManyPositions p.positions.length cfg.max_positions ∈
        (RiskManager.evaluate cfg t p).warnings) := by
  by_cases h2 : p.positions.length ≥ cfg.max_positions <;>
    simp [RiskManager.evaluate, h, h2]

/-- Witness for C4: an oversized trade (notional 2000 against a 1000 portfolio,
10% cap) into a portfolio already at the 10-position cap is rejected with both
warnings. -/
theorem evaluate_rejects_oversized_witness :
    (RiskManager.evaluate RiskManager.DEFAULTS
        { asset_type := "STOCK", price := 10, quantity := 200 }
        { total_value := 1000,
          positions := List.replicate 10
            { symbol := "A", position := 0, marketPrice := 0, marketValue := 0,
              averageCost := 0, unrealizedPnL := 0, realizedPnL := 0,
              contractId := 0 } }).approved = false :=
  (evaluate_rejects_oversized_and_accumulates RiskManager.DEFAULTS
    { asset_type := "STOCK", price := 10, quantity := 200 }
    { total_value := 1000,
      positions := List.replicate 10
        { symbol := "A", position := 0, marketPrice := 0, marketValue := 0,
          averageCost := 0, unrealizedPnL := 0, realizedPnL := 0,
          contractId := 0 } } (by norm_num [orOne, RiskManager.DEFAULTS])).1

/-- **C7, counterexample** — `calculate_safe_size` caps its answer at the
requested quantity, so it is not "the largest quantity satisfying the
position-size constraint": requesting 10 shares at price 1 against a 10000
portfolio (10% cap, so 1000 shares would satisfy the constraint) returns 10. -/
theorem calculate_safe_size_not_largest :
    ¬ IsLargestSafeQuantity RiskManager.DEFAULTS
        { asset_type := "STOCK", price := 1, quantity := 10 }
        { total_value := 10000, positions := [] }
        (RiskManager.calculate_safe_size RiskManager.DEFAULTS
          { asset_type := "STOCK", price := 1, quantity := 10 }
          { total_value := 10000, positions := [] }) := by
  intro h
  have hval : RiskManager.calculate_safe_size RiskManager.DEFAULTS
      { asset_type := "STOCK", price := 1, quantity := 10 }
      { total_value := 10000, positions := [] } = 10 := by
    norm_num [RiskManager.calculate_safe_size, RiskManager.DEFAULTS, orOne,
      intTrunc, min_def]
  have h1000 := h.2 1000 (by norm_num [RiskManager.DEFAULTS])
  rw [hval] at h1000
  norm_num at h1000

/-- **C7, amended** — `calculate_safe_size` returns the largest quantity *not
exceeding the requested quantity* whose notional satisfies the configured
position-size fraction: the result is at most the request, its notional is
within the cap, and it dominates every integer quantity within both bounds
(for a positive price and nonnegative total value and fraction). -/
theorem calculate_safe_size_largest_at_most_requested (cfg : RiskConfig)
    (t : Trade) (p : Portfolio) (hprice : 0 < t.price)
    (htot : 0 ≤ p.total_value) (hpct : 0 ≤ cfg.max_position_pct) :
    RiskManager.calculate_safe_size cfg t p ≤ t.quantity ∧
    RiskManager.calculate_safe_size cfg t p * t.price ≤
      cfg.max_position_pct * p.total_value ∧
    ∀ m : ℤ, (m : ℚ) ≤ t.quantity →
      (m : ℚ) * t.price ≤ cfg.max_position_pct * p.total_value →
      (m : ℚ) ≤ RiskManager.calculate_safe_size cfg t p := by
  have hne : t.price ≠ 0 := ne_of_gt hprice
  have horOne : orOne t.price = t.price := if_neg hne
  unfold RiskManager.calculate_safe_size
  rw [horOne]
  set ms : ℚ := p.total_value * cfg.max_position_pct / t.price with hms
  have hms0 : 0 ≤ ms := div_nonneg (mul_nonneg htot hpct) hprice.le
  have htrunc : intTrunc ms = ⌊ms⌋ := if_neg (not_lt.2 hms0)
  have hfloor_le : ((intTrunc ms : ℤ) : ℚ) ≤ ms := by
    rw [htrunc]; exact Int.floor_le ms
  refine ⟨min_le_left _ _, ?_, ?_⟩
  · have hle : min t.quantity ((intTrunc ms : ℤ) : ℚ) ≤ ms :=
      le_trans (min_le_right _ _) hfloor_le
    have := mul_le_mul_of_nonneg_right hle hprice.le
    calc min t.quantity ((intTrunc ms : ℤ) : ℚ) * t.price
        ≤ ms * t.price := this
      _ = cfg.max_position_pct * p.total_value := by
          rw [hms, div_mul_cancel₀ _ hne, mul_comm]
  · intro m hm1 hm2
    have hle : (m : ℚ) ≤ ms := by
      rw [hms, le_div_iff₀ hprice, mul_comm p.total_value cfg.max_position_pct]
      exact hm2
    have hfl : m ≤ ⌊ms⌋ := Int.le_floor.2 hle
    refine le_min hm1 ?_
    rw [htrunc]
    exact_mod_cast hfl

/-- Witness for the amended C7 at a concrete safe request: 10 shares at price 1
against a 100 portfolio under the 10% default cap. -/
theorem calculate_safe_size_largest_witness :
    RiskManager.calculate_safe_size RiskManager.DEFAULTS
      { asset_type := "STOCK", price := 1, quantity := 10 }
      { total_value := 100, positions := [] } ≤ 10 :=
  (calculate_safe_size_largest_at_most_requested RiskManager.DEFAULTS
    { asset_type := "STOCK", price := 1, quantity := 10 }
    { total_value := 100, positions := [] }
    (by norm_num) (by norm_num) (by norm_num [RiskManager.DEFAULTS])).1

/-- **C9** — degenerate divisors are replaced by 1 (`x or 1` in the source):
evaluating against a zero-total-value portfolio equals evaluating against a
total value of 1, and sizing a zero-price trade equals sizing a price-1
trade; in particular neither operation can divide by zero. -/
theorem risk_degenerate_divisor_one (cfg : RiskConfig) (t : Trade)
    (pos : List Position) (p : Portfolio) :
    RiskManager.evaluate cfg t { total_value := 0, positions := pos } =
      RiskManager.evaluate cfg t { total_value := 1, positions := pos } ∧
    RiskManager.calculate_safe_size cfg { t with price := 0 } p =
      RiskManager.calculate_safe_size cfg { t with price := 1 } p := by
  constructor <;>
    simp [RiskManager.evaluate, RiskManager.calculate_safe_size, orOne]

/-- **C5, counterexample** — the claimed precedence puts `Managing Position`
(an exit leg still open) before `Bracket Closed` (an exit leg filled); the
code checks `Filled` first: with the main order filled, the profit target
filled and the stop-loss leg still open (Submitted), `get_status` reports
`Bracket Closed`, not `Managing Position`. -/
theorem bracket_closed_beats_managing :
    bracketMixed.main_order.filled_quantity ≠ 0 ∧
    stopLegOpen ∈ bracketMixed.exitLegs ∧
    stopLegOpen.status ∈ openStatuses ∧
    bracketMixed.get_status ≠ "Managing Position" ∧
    bracketMixed.get_status = "Bracket Closed" := by decide

/-- **C5, amended** — the derived bracket status follows the code's
precedence: main order with zero filled quantity → the main order's status;
otherwise any exit leg `Filled` → `Bracket Closed` (this takes precedence
over a sibling that is still open, the sibling being implicitly resolved by
the OCA relationship); otherwise any exit leg `Submitted`/`PreSubmitted` →
`Managing Position`; otherwise → `Bracket Active`. -/
theorem bracket_status_precedence (b : BracketOrder) :
    (b.main_order.filled_quantity = 0 → b.get_status = b.main_order.status) ∧
    (b.main_order.filled_quantity ≠ 0 →
      (∃ o ∈ b.exitLegs, o.status = "Filled") →
      b.get_status = "Bracket Closed") ∧
    (b.main_order.filled_quantity ≠ 0 →
      (∀ o ∈ b.exitLegs, o.status ≠ "Filled") →
      (∃ o ∈ b.exitLegs, o.status = "Submitted" ∨ o.status = "PreSubmitted") →
      b.get_status = "Managing Position") ∧
    (b.main_order.filled_quantity ≠ 0 →
      (∀ o ∈ b.exitLegs, o.status ≠ "Filled" ∧ o.status ≠ "Submitted" ∧
        o.status ≠ "PreSubmitted") →
      b.get_status = "Bracket Active") := by
  refine ⟨?_, ?_, ?_, ?_⟩
  · intro h
    unfold BracketOrder.get_status
    rw [if_pos h]
  · intro h hex
    rcases hex with ⟨o, ho, hst⟩
    unfold BracketOrder.exitLegs at ho
    unfold BracketOrder.get_status
    rw [if_neg h]
    show (if (b.get_all_orders.filter fun o => decide (o ≠ b.main_order)).any
        (fun o => decide (o.status = "Filled")) then "Bracket Closed"
      else _) = _
    rw [if_pos (List.any_eq_true.2 ⟨o, ho, by simp [hst]⟩)]
  · intro h hnone hex
    rcases hex with ⟨o, ho, hst⟩
    unfold BracketOrder.exitLegs at ho hnone
    unfold BracketOrder.get_status
    rw [if_neg h]
    show (if (b.get_all_orders.filter fun o => decide (o ≠ b.main_order)).any
        (fun o => decide (o.status = "Filled")) then "Bracket Closed"
      else _) = _
    have hno : ¬ (b.get_all_orders.filter fun o => decide (o ≠ b.main_order)).any
        (fun o => decide (o.status = "Filled")) = true := by
      intro hany
      rcases List.any_eq_true.1 hany with ⟨x, hx, hxs⟩
      exact hnone x hx (of_decide_eq_true hxs)
    rw [if_neg hno]
    show (if (b.get_all_orders.filter fun o => decide (o ≠ b.main_order)).any
        (fun o => decide (o.status = "Submitted" ∨ o.status = "PreSubmitted")) then
        "Managing Position" else _) = _
    rw [if_pos (List.any_eq_true.2 ⟨o, ho, by simp [hst]⟩)]
  · intro h hnone
    unfold BracketOrder.exitLegs at hnone
    unfold BracketOrder.get_status
    rw [if_neg h]
    show (if (b.get_all_orders.filter fun o => decide (o ≠ b.main_order)).any
        (fun o => decide (o.status = "Filled")) then "Bracket Closed"
      else _) = _
    have hnoF : ¬ (b.get_all_orders.filter fun o => decide (o ≠ b.main_order)).any
        (fun o => decide (o.status = "Filled")) = true := by
      intro hany
      rcases List.any_eq_true.1 hany with ⟨x, hx, hxs⟩
      exact (hnone x hx).1 (of_decide_eq_true hxs)
    rw [if_neg hnoF]
    show (if (b.get_all_orders.filter fun o => decide (o ≠ b.main_order)).any
        (fun o => decide (o.status = "Submitted" ∨ o.status = "PreSubmitted")) then
        "Managing Position" else _) = _
    have hnoW : ¬ (b.get_all_orders.filter fun o => decide (o ≠ b.main_order)).any
        (fun o => decide (o.status = "Submitted" ∨ o.status = "PreSubmitted")) = true := by
      intro hany
      rcases List.any_eq_true.1 hany with ⟨x, hx, hxs⟩
      rcases of_decide_eq_true hxs with hs | hs
      · exact (hnone x hx).2.1 hs
      · exact (hnone x hx).2.2 hs
    rw [if_neg hnoW]

/-- Witness for the amended C5: the mixed bracket (main filled, one exit leg
filled, the sibling still open) reports `Bracket Closed`. -/
theorem bracket_status_precedence_witness :
    bracketMixed.get_status = "Bracket Closed" :=
  (bracket_status_precedence bracketMixed).2.1 (by decide)
    ⟨{ order_id := "2", status := "Filled" }, by decide, by decide⟩

/-- **C6** — checkout on a pool whose connections are all checked out (empty
`available` queue, so the `asyncio.wait_for` on the queue can only expire)
yields the capacity `TimeoutError` result rather than hanging, and a
successful checkout never alters the owned connection list or the configured
maximum — the checkout path cannot grow the pool. -/
theorem pool_exhausted_times_out_and_never_grows (s : PoolState) :
    (s.available = [] → ConnectionPool.get_connection s = .timeoutError) ∧
    (∀ conn s', ConnectionPool.get_connection s = .ok conn s' →
      s'.connections = s.connections ∧ s'.max_connections = s.max_connections) := by
  have hloop : ∀ (l : List ConnectionManager) (st : PoolState)
      (conn : ConnectionManager) (s' : PoolState),
      getConnectionLoop l st = .ok conn s' →
      s'.connections = st.connections ∧ s'.max_connections = st.max_connections := by
    intro l
    induction l with
    | nil => intro st conn s' h; cases h
    | cons a t ih =>
        intro st conn s' h
        unfold getConnectionLoop at h
        split at h
        · cases h; exact ⟨rfl, rfl⟩
        · split at h
          · cases h; exact ⟨rfl, rfl⟩
          · exact ih { st with available := t } conn s' h
  constructor
  · intro h
    unfold ConnectionPool.get_connection
    rw [h]
    rfl
  · intro conn s' h
    exact hloop s.available s conn s' h

/-- Witness for C6: the drained pool times out; a checkout from the ready pool
leaves the connection list untouched. -/
theorem pool_exhausted_witness :
    ConnectionPool.get_connection poolDrained = .timeoutError ∧
    ({ poolReady with available := [], in_use := [connA] } :
        PoolState).connections = poolReady.connections :=
  ⟨(pool_exhausted_times_out_and_never_grows poolDrained).1 rfl,
   ((pool_exhausted_times_out_and_never_grows poolReady).2 connA
     { poolReady with available := [], in_use := [connA] } rfl).1⟩

/-- **C8, counterexample** — not every gateway call updates the counters:
`Broker.place_order` (order placement) and `Broker.cancel_order` contain no
`_track_request_*` call on any path, so at counters (total 3, failed 1) a
placement leaves the total at 3 (not 4) and a failed cancel leaves the
failed count at 1 (not 2). -/
theorem place_and_cancel_not_counted :
    place_order_counters ⟨3, 1⟩ true = ⟨3, 1⟩ ∧
    place_order_counters ⟨3, 1⟩ false = ⟨3, 1⟩ ∧
    cancel_order_counters ⟨3, 1⟩ true = ⟨3, 1⟩ ∧
    cancel_order_counters ⟨3, 1⟩ false = ⟨3, 1⟩ ∧
    (place_order_counters ⟨3, 1⟩ true).total_request_count ≠ 3 + 1 ∧
    (cancel_order_counters ⟨3, 1⟩ false).failed_request_count ≠ 1 + 1 := by
  exact ⟨rfl, rfl, rfl, rfl, by decide, by decide⟩

/-- **C8, amended** — a tracked call increments the total request counter
and, on failure, the failed request counter. The bracket placement,
trailing-stop placement and modify calls are tracked on every path (their
not-connected guard raises inside the try and is counted as a failure). The
four query calls (positions, portfolio, and both open-order queries) are
tracked only past their connection guard: their not-connected (and, for
positions/portfolio, not-ready) early paths update neither counter. Plain
`place_order` and `cancel_order` never update the counters. Tracking
preserves `failed ≤ total`, and the health report's success rate —
`(total − failed) / total` when any request was counted, else `0` — always
lies in `[0, 1]`. -/
theorem counters_tracked_methods_and_success_rate (c : RequestCounters)
    (ok connected ready : Bool)
    (hinv : c.failed_request_count ≤ c.total_request_count) :
    (trackedCall c ok).total_request_count = c.total_request_count + 1 ∧
    (trackedCall c ok).failed_request_count =
      c.failed_request_count + (if ok then 0 else 1) ∧
    get_positions_counters c true true ok = trackedCall c ok ∧
    get_portfolio_counters c true true ok = trackedCall c ok ∧
    get_open_orders_counters c true ok = trackedCall c ok ∧
    get_enhanced_open_orders_counters c true ok = trackedCall c ok ∧
    (¬(connected = true ∧ ready = true) →
      get_positions_counters c connected ready ok = c ∧
      get_portfolio_counters c connected ready ok = c) ∧
    (connected = false →
      get_open_orders_counters c connected ok = c ∧
      get_enhanced_open_orders_counters c connected ok = c) ∧
    place_bracket_order_counters c ok = trackedCall c ok ∧
    place_trailing_stop_order_counters c ok = trackedCall c ok ∧
    modify_order_counters c ok = trackedCall c ok ∧
    place_order_counters c ok = c ∧
    cancel_order_counters c ok = c ∧
    (trackedCall c ok).failed_request_count ≤
      (trackedCall c ok).total_request_count ∧
    0 ≤ success_rate c ∧ success_rate c ≤ 1 := by
  have hcast : (c.failed_request_count : ℚ) ≤ c.total_request_count := by
    exact_mod_cast hinv
  refine ⟨?_, ?_, rfl, rfl, rfl, rfl, ?_, ?_, rfl, rfl, rfl, rfl, rfl, ?_, ?_, ?_⟩
  · cases ok <;> rfl
  · cases ok <;> rfl
  · intro h
    cases connected <;> cases ready <;>
      simp_all [get_positions_counters, get_portfolio_counters]
  · intro h
    subst h
    exact ⟨rfl, rfl⟩
  · cases ok <;>
      simp [trackedCall, track_request_success, track_request_failure] <;>
      omega
  · unfold success_rate
    split
    · exact div_nonneg (by linarith) (by positivity)
    · exact le_refl 0
  · unfold success_rate
    split
    · next h =>
        have hpos : (0 : ℚ) < c.total_request_count := by exact_mod_cast h
        rw [div_le_one hpos]
        have hf : (0 : ℚ) ≤ c.failed_request_count := by positivity
        linarith
    · exact zero_le_one

/-- Witness for the amended C8: at counters (total 2, failed 1) a connected,
ready, successful tracked call raises the total to 3, while a not-connected
position query leaves the counters untouched. -/
theorem counters_tracked_witness :
    (trackedCall ⟨2, 1⟩ true).total_request_count = 2 + 1 ∧
    get_positions_counters ⟨2, 1⟩ false true true = ⟨2, 1⟩ :=
  ⟨(counters_tracked_methods_and_success_rate ⟨2, 1⟩ true false true
      (by decide)).1,
   ((counters_tracked_methods_and_success_rate ⟨2, 1⟩ true false true
      (by decide)).2.2.2.2.2.2.1 (by simp)).1⟩

end Gallump
